import Mathlib

/-!
Shallow embedding of the amdgpu-fan daemon (src/control.rs, src/amdgpu.rs,
src/main.rs).

Floating point (`f64`) is modelled by `FP`: NaN, two signed infinities, and
exact rational finite values.  Every arithmetic step exercised by the
verified statements is exact in IEEE binary64 (small integers and halves,
and sums/products that stay far below 2^53), and the NaN-propagation and
finiteness behaviour of each operation is modelled faithfully, so the
rational model decides these statements exactly as the binary64 code does.
In particular `f64::min` / `f64::max` return the non-NaN operand when one
argument is NaN, as in Rust.

File IO is abstracted: a device file is its content (a `List Char`, with an
abstract IO-error code for an unreadable file), and the device handle used
by the control loop is a table of outcomes for each hardware access,
indexed by how many accesses of that kind happened before.
-/

/-- Model of an `f64` value: NaN, an infinity (`true` = positive), or an
exact finite rational. -/
inductive FP where
  | nan : FP
  | inf : Bool → FP
  | fin : ℚ → FP
  deriving DecidableEq

/-- IEEE `<` on modelled doubles: NaN is incomparable to everything. -/
def FP.lt : FP → FP → Bool
  | .nan, _ => false
  | _, .nan => false
  | .inf s, .inf t => !s && t
  | .inf s, .fin _ => !s
  | .fin _, .inf t => t
  | .fin a, .fin b => decide (a < b)

/-- IEEE addition on modelled doubles (exact in the finite case). -/
def FP.add : FP → FP → FP
  | .nan, _ => .nan
  | _, .nan => .nan
  | .inf s, .inf t => if s = t then .inf s else .nan
  | .inf s, .fin _ => .inf s
  | .fin _, .inf t => .inf t
  | .fin a, .fin b => .fin (a + b)

/-- IEEE negation on modelled doubles. -/
def FP.neg : FP → FP
  | .nan => .nan
  | .inf s => .inf (!s)
  | .fin q => .fin (-q)

/-- IEEE subtraction, as addition of the negation (exact in the finite
case, so this agrees with binary64 subtraction wherever both are exact). -/
def FP.sub (a b : FP) : FP := a.add b.neg

/-- IEEE multiplication on modelled doubles (exact in the finite case). -/
def FP.mul : FP → FP → FP
  | .nan, _ => .nan
  | _, .nan => .nan
  | .inf s, .inf t => .inf (s = t)
  | .inf s, .fin q => if q = 0 then .nan else if 0 < q then .inf s else .inf (!s)
  | .fin q, .inf s => if q = 0 then .nan else if 0 < q then .inf s else .inf (!s)
  | .fin a, .fin b => .fin (a * b)

/-- IEEE division on modelled doubles (exact in the finite case; our single
rational zero behaves as IEEE +0). -/
def FP.div : FP → FP → FP
  | .nan, _ => .nan
  | _, .nan => .nan
  | .inf _, .inf _ => .nan
  | .inf s, .fin q => if 0 ≤ q then .inf s else .inf (!s)
  | .fin _, .inf _ => .fin 0
  | .fin a, .fin b =>
    if b = 0 then (if a = 0 then .nan else if 0 < a then .inf true else .inf false)
    else .fin (a / b)

/-- Rust `f64::min`: if one argument is NaN the other is returned,
otherwise the smaller. -/
def FP.rmin (a b : FP) : FP :=
  match a, b with
  | .nan, _ => b
  | _, .nan => a
  | _, _ => if FP.lt b a then b else a

/-- Rust `f64::max`: if one argument is NaN the other is returned,
otherwise the larger. -/
def FP.rmax (a b : FP) : FP :=
  match a, b with
  | .nan, _ => b
  | _, .nan => a
  | _, _ => if FP.lt a b then b else a

/-- Rust `f64::is_finite`. -/
def FP.isFinite : FP → Bool
  | .fin _ => true
  | _ => false

/-- Floor of a finite modelled double (junk value 0 elsewhere; every use is
guarded by `isFinite`, as in the source). -/
def FP.floorInt : FP → Int
  | .fin q => ⌊q⌋
  | _ => 0

/-! ## src/control.rs — the piecewise-linear control curve -/

/-- Comparator `probe.0.partial_cmp(&input)` used by the binary search in
`ControlCurve::control`: the curve x-value `q` is a finite double, `input`
is arbitrary; the comparison is `none` (a panic at the `expect`) exactly
when `input` is NaN. -/
def cmpProbe (q : ℚ) (input : FP) : Option Ordering :=
  match input with
  | .nan => none
  | .inf s => if s then some Ordering.lt else some Ordering.gt
  | .fin r => if q < r then some Ordering.lt else if r < q then some Ordering.gt else some Ordering.eq

/-- Rust `slice::binary_search_by` on the curve points, merged with the
`unwrap_or_else(|pos| pos)` of the source: returns the found index or the
insertion position, and `none` when a comparison panics (NaN input).  The
loop of the Rust standard library is transcribed with explicit
`left`/`right` bounds and fuel (the search halves the window, so fuel
`pts.length + 1` always suffices). -/
def bsearchGo (pts : List (ℚ × ℚ)) (input : FP) : Nat → Nat → Nat → Option Nat
  | 0, left, _ => some left
  | fuel + 1, left, right =>
    if left < right then
      let mid := left + (right - left) / 2
      match pts.get? mid with
      | none => some left
      | some probe =>
        match cmpProbe probe.1 input with
        | none => none
        | some Ordering.lt => bsearchGo pts input fuel (mid + 1) right
        | some Ordering.gt => bsearchGo pts input fuel left mid
        | some Ordering.eq => some mid
    else some left

/-- The `high_index` of `ControlCurve::control`. -/
def highIndex (pts : List (ℚ × ℚ)) (input : FP) : Option Nat :=
  bsearchGo pts input (pts.length + 1) 0 pts.length

/-- `ControlCurve::control`.  The curve is its list of `(x, y)` data points
(finite doubles, as produced by the configuration loader).  Result `none`
models a panic (NaN input against a nonempty curve, or an out-of-range
index, which the source's `assert` rules out). -/
def ControlCurve.control (pts : List (ℚ × ℚ)) (input : FP) : Option FP :=
  if pts.isEmpty then some FP.nan
  else
    match highIndex pts input with
    | none => none
    | some hi =>
      if hi = 0 then (pts.get? 0).map (fun p => FP.fin p.2)
      else if hi = pts.length then (pts.get? (hi - 1)).map (fun p => FP.fin p.2)
      else
        match pts.get? (hi - 1), pts.get? hi with
        | some lo, some hip =>
          some ((FP.fin lo.2).add
            ((((FP.fin hip.2).sub (FP.fin lo.2)).mul (input.sub (FP.fin lo.1))).div
              ((FP.fin hip.1).sub (FP.fin lo.1))))
        | _, _ => none

/-- The curve of the source's unit tests, also used as concrete data by the
witnesses below. -/
def testCurve : List (ℚ × ℚ) := [(10, 5), (30, 10), (50, 50), (100, 80)]

/-! ## src/amdgpu.rs — errors, PWM conversion, file parsing -/

/-- `GpuError`.  IO errors are abstracted to a numeric code; `parse`
carries the offending path and the raw first line read (or `none` when the
file had no line), exactly as `GpuError::Parse(PathBuf, Option<String>)`. -/
inductive GpuError where
  | ioErr (code : Nat)
  | parse (path : String) (contents : Option (List Char))
  | invalidFanSpeed (pmin pmax : Int) (percentage : FP)
  deriving DecidableEq

/-- Smallest `i32` value, -2^31. -/
def i32min : Int := -2147483648

/-- Largest `i32` value, 2^31 - 1. -/
def i32max : Int := 2147483647

/-- Rust `as i32` on a finite, already-integral double: saturating cast. -/
def satI32 (n : Int) : Int :=
  if n < i32min then i32min else if i32max < n then i32max else n

/-- The clamp `percentage.min(1.0).max(0.0)` from `Pwm::from_percentage`,
with Rust NaN semantics for min/max. -/
def fpClamp (percentage : FP) : FP := (percentage.rmin (.fin 1)).rmax (.fin 0)

/-- `Pwm::from_percentage`.  `Pwm` is its raw `i32`, modelled as `Int`;
the two bounds come from the device files and are genuine `i32` values. -/
def from_percentage (pmin pmax : Int) (percentage : FP) : Except GpuError Int :=
  let pwm_float := (FP.fin (pmin : ℚ)).add
    (((FP.fin (pmax : ℚ)).sub (FP.fin (pmin : ℚ))).mul (fpClamp percentage))
  if pwm_float.isFinite then Except.ok (satI32 pwm_float.floorInt)
  else Except.error (GpuError.invalidFanSpeed pmin pmax percentage)

/-- Strip one trailing carriage return, as `BufRead::lines` does after
removing the newline. -/
def stripTrailingCR (l : List Char) : List Char :=
  match l.getLast? with
  | some c => if c = '\r' then l.dropLast else l
  | none => l

/-- `reader.lines().next()` on a file with the given content: `none` for an
empty file, otherwise the first line with its line ending (`\n` or `\r\n`)
removed; a final line not terminated by a newline keeps any trailing
carriage return, as in Rust. -/
def rustFirstLine (cs : List Char) : Option (List Char) :=
  if cs.isEmpty then none
  else
    let pre := cs.takeWhile (fun c => c ≠ '\n')
    if pre.length = cs.length then some pre
    else some (stripTrailingCR pre)

/-- Accumulator loop of decimal digit parsing: `none` on the first
non-digit character. -/
def digitsVal : List Char → Nat → Option Nat
  | [], acc => some acc
  | c :: rest, acc =>
    if c.isDigit then digitsVal rest (acc * 10 + (c.toNat - 48)) else none

/-- Rust `str::parse::<i32>`: an optional sign, then one or more ASCII
digits and nothing else; overflow beyond the `i32` range is an error (the
source checks overflow while accumulating, which rejects exactly the same
strings). -/
def parseI32 (cs : List Char) : Option Int :=
  let signAndDigits : Bool × List Char :=
    match cs with
    | '-' :: rest => (true, rest)
    | '+' :: rest => (false, rest)
    | _ => (false, cs)
  match signAndDigits.2 with
  | [] => none
  | ds =>
    match digitsVal ds 0 with
    | none => none
    | some n =>
      let v : Int := if signAndDigits.1 then -(n : Int) else (n : Int)
      if i32min ≤ v ∧ v ≤ i32max then some v else none

/-- `Hwmon::read_value` at type `i32`, with the file abstracted to its
content: `Except.error c` is a failing `File::open` with abstract IO code
`c`, `Except.ok cs` is a readable file containing the characters `cs`. -/
def read_value (path : String) (file : Except Nat (List Char)) : Except GpuError Int :=
  match file with
  | .error c => Except.error (GpuError.ioErr c)
  | .ok cs =>
    let contents := rustFirstLine cs
    match contents.map parseI32 with
    | some (some v) => Except.ok v
    | _ => Except.error (GpuError.parse path contents)

/-! ## src/main.rs — the control loop and its caller `run` -/

/-- `PwmMode`. -/
inductive PwmMode where
  | manual
  | automatic
  deriving DecidableEq

/-- One observable hardware access performed by the loop or its caller.
An event records that the access was attempted, whatever its outcome. -/
inductive Event where
  | setMode (m : PwmMode)
  | readTemp
  | setPwm (v : Int)
  deriving DecidableEq

/-- The device handle as the loop sees it: cached PWM bounds plus the
outcome of each hardware access, indexed by how many accesses of that kind
happened before (this models an arbitrary evolution of the device state). -/
structure DeviceModel where
  pwm_min : Int
  pwm_max : Int
  tempResult : Nat → Except GpuError Int
  setPwmResult : Nat → Except GpuError Unit
  setModeResult : PwmMode → Except GpuError Unit

/-- `Temperature::as_celcius`: raw thousandths of a degree to degrees. -/
def as_celcius (traw : Int) : ℚ := (traw : ℚ) / 1000

/-- Body of `control_loop`, with fuel (the Rust loop runs until the exit
flag is observed; `exit n` is the flag value observed before iteration
`n`, which models the flag being set asynchronously at any time).  Returns
the trace of hardware accesses and the outcome: `some r` when the loop
returned `r`, `none` when the fuel ran out (the loop is still running) or
a panic occurred. -/
def controlLoopGo (d : DeviceModel) (curve : List (ℚ × ℚ)) (exit : Nat → Bool) :
    Nat → Nat → List Event × Option (Except GpuError Unit)
  | 0, _ => ([], none)
  | fuel + 1, n =>
    if exit n then ([], some (Except.ok ()))
    else
      match d.tempResult n with
      | .error e => ([Event.readTemp], some (Except.error e))
      | .ok traw =>
        match ControlCurve.control curve (FP.fin (as_celcius traw)) with
        | none => ([Event.readTemp], none)
        | some frac =>
          match from_percentage d.pwm_min d.pwm_max frac with
          | .error e => ([Event.readTemp], some (Except.error e))
          | .ok v =>
            match d.setPwmResult n with
            | .error e => ([Event.readTemp, Event.setPwm v], some (Except.error e))
            | .ok _ =>
              let r := controlLoopGo d curve exit fuel (n + 1)
              (Event.readTemp :: Event.setPwm v :: r.1, r.2)

/-- `control_loop`.  The poll interval only determines real-time sleeping,
which the model does not observe, so the parameter is carried but unused. -/
def control_loop (d : DeviceModel) (_poll : Nat) (curve : List (ℚ × ℚ))
    (exit : Nat → Bool) (fuel : Nat) : List Event × Option (Except GpuError Unit) :=
  controlLoopGo d curve exit fuel 0

/-- The portion of `run` from the initial `set_pwm_mode(Manual)` to the
final result (configuration loading and device discovery happen before and
are outside this model).  The restore `set_pwm_mode(Automatic)` is always
attempted once the loop returned; its own outcome is only logged, so the
loop's result is returned unchanged. -/
def run (d : DeviceModel) (poll : Nat) (curve : List (ℚ × ℚ))
    (exit : Nat → Bool) (fuel : Nat) : List Event × Option (Except GpuError Unit) :=
  match d.setModeResult PwmMode.manual with
  | .error e => ([Event.setMode PwmMode.manual], some (Except.error e))
  | .ok _ =>
    let r := control_loop d poll curve exit fuel
    match r.2 with
    | none => (Event.setMode PwmMode.manual :: r.1, none)
    | some res =>
      (Event.setMode PwmMode.manual :: r.1 ++ [Event.setMode PwmMode.automatic], some res)

/-! ## Helper lemmas about the PWM conversion -/

/-- The source's clamp sends zero to zero. -/
lemma fpClamp_zero : fpClamp (FP.fin 0) = FP.fin 0 := by decide

/-- The source's clamp sends one to one. -/
lemma fpClamp_one : fpClamp (FP.fin 1) = FP.fin 1 := by decide

/-- The source's clamp sends NaN to one: Rust min/max drop the NaN operand. -/
lemma fpClamp_nan : fpClamp FP.nan = FP.fin 1 := by decide

/-- Whatever the input double, the clamp produces a finite value in `[0, 1]`. -/
lemma fpClamp_spec (f : FP) : ∃ t : ℚ, fpClamp f = FP.fin t ∧ 0 ≤ t ∧ t ≤ 1 := by
  cases f with
  | nan => exact ⟨1, fpClamp_nan, by norm_num, le_refl 1⟩
  | inf s =>
    cases s with
    | true => exact ⟨1, by decide, by norm_num, le_refl 1⟩
    | false => exact ⟨0, by decide, le_refl 0, by norm_num⟩
  | fin q =>
    by_cases h1 : 1 < q
    · refine ⟨1, ?_, by norm_num, le_refl 1⟩
      norm_num [fpClamp, FP.rmin, FP.rmax, FP.lt, h1]
    · by_cases h0 : q < 0
      · refine ⟨0, ?_, le_refl 0, by norm_num⟩
        norm_num [fpClamp, FP.rmin, FP.rmax, FP.lt, h1, h0]
      · refine ⟨q, ?_, by linarith [not_lt.mp h0], by linarith [not_lt.mp h1]⟩
        norm_num [fpClamp, FP.rmin, FP.rmax, FP.lt, h1, h0]

/-- Evaluation of `from_percentage`: the clamp yields a finite `t ∈ [0, 1]`,
the computed double is the exact rational `min + (max - min) * t`, which is
always finite, so the `Ok` branch is always taken. -/
lemma from_percentage_ok (pmin pmax : Int) (f : FP) :
    ∃ t : ℚ, 0 ≤ t ∧ t ≤ 1 ∧
      from_percentage pmin pmax f =
        Except.ok (satI32 ⌊(pmin : ℚ) + ((pmax : ℚ) - (pmin : ℚ)) * t⌋) := by
  obtain ⟨t, ht, h0, h1⟩ := fpClamp_spec f
  refine ⟨t, h0, h1, ?_⟩
  simp only [from_percentage, ht, FP.sub, FP.neg, FP.add, FP.mul, FP.isFinite, FP.floorInt]
  norm_num [sub_eq_add_neg]

/-- Two fractions with the same clamped value convert identically. -/
lemma from_percentage_congr (pmin pmax : Int) (f g : FP)
    (h : fpClamp f = fpClamp g) :
    from_percentage pmin pmax f = from_percentage pmin pmax g := by
  obtain ⟨t, ht, _, _⟩ := fpClamp_spec g
  have hf : fpClamp f = FP.fin t := by rw [h, ht]
  simp only [from_percentage, hf, ht, FP.sub, FP.neg, FP.add, FP.mul, FP.isFinite]
  simp

/-- A saturating cast of a value already inside the `i32` range is the identity. -/
lemma satI32_id (n : Int) (hlo : i32min ≤ n) (hhi : n ≤ i32max) : satI32 n = n := by
  simp only [satI32, i32min, i32max] at *
  rw [if_neg (by omega), if_neg (by omega)]

/-! ## Helper lemmas about the control loop and file parsing -/

/-- The loop body only touches the temperature and PWM files: no mode write
ever appears in its trace. -/
lemma controlLoopGo_no_setMode (d : DeviceModel) (curve : List (ℚ × ℚ))
    (exit : Nat → Bool) (m : PwmMode) :
    ∀ fuel n, Event.setMode m ∉ (controlLoopGo d curve exit fuel n).1 := by
  intro fuel
  induction fuel with
  | zero => intro n; simp [controlLoopGo]
  | succ f ih =>
    intro n
    by_cases hx : exit n
    · simp [controlLoopGo, hx]
    · cases ht : d.tempResult n with
      | error e => simp [controlLoopGo, hx, ht]
      | ok traw =>
        cases hc : ControlCurve.control curve (FP.fin (as_celcius traw)) with
        | none => simp [controlLoopGo, hx, ht, hc]
        | some frac =>
          cases hf : from_percentage d.pwm_min d.pwm_max frac with
          | error e => simp [controlLoopGo, hx, ht, hc, hf]
          | ok v =>
            cases hp : d.setPwmResult n with
            | error e => simp [controlLoopGo, hx, ht, hc, hf, hp]
            | ok u =>
              simp only [controlLoopGo, hx, ht, hc, hf, hp]
              simp only [Bool.false_eq_true, if_false, List.mem_cons]
              push_neg
              exact ⟨by simp, by simp, ih (n + 1)⟩

/-- Taking characters up to the first newline of `l ++ \n :: rest` yields
exactly `l` when `l` itself has no newline. -/
lemma takeWhile_append_newline (l rest : List Char) (h : '\n' ∉ l) :
    (l ++ '\n' :: rest).takeWhile (fun c => c ≠ '\n') = l := by
  induction l with
  | nil => simp [List.takeWhile]
  | cons c t ih =>
    have hc : c ≠ '\n' := fun hceq => h (hceq ▸ List.mem_cons_self c t)
    have ht : '\n' ∉ t := fun hm => h (List.mem_cons_of_mem c hm)
    simp only [List.cons_append, List.takeWhile_cons, hc]
    simp only [decide_not, ne_eq, decide_eq_true_eq] at *
    simp [hc, ih ht]

/-- The first line read from a file `l ++ \n :: rest` is `l` (with a
trailing carriage return stripped), whatever comes after the newline. -/
lemma rustFirstLine_append_newline (l rest : List Char) (h : '\n' ∉ l) :
    rustFirstLine (l ++ '\n' :: rest) = some (stripTrailingCR l) := by
  have htw := takeWhile_append_newline l rest h
  simp only [rustFirstLine, htw]
  rw [if_neg (by simp), if_neg (by rw [List.length_append, List.length_cons]; omega)]

/-! ## Concrete devices for the closed statements -/

/-- A device on which every hardware access succeeds. -/
def devOk : DeviceModel where
  pwm_min := 0
  pwm_max := 255
  tempResult := fun _ => Except.ok 40000
  setPwmResult := fun _ => Except.ok ()
  setModeResult := fun _ => Except.ok ()

/-- A device whose temperature file fails to read with an IO error. -/
def devTempFail : DeviceModel where
  pwm_min := 0
  pwm_max := 255
  tempResult := fun _ => Except.error (GpuError.ioErr 3)
  setPwmResult := fun _ => Except.ok ()
  setModeResult := fun _ => Except.ok ()

/-- A device on which the Manual mode write fails with an IO error while
everything else succeeds. -/
def devManualFail : DeviceModel where
  pwm_min := 0
  pwm_max := 255
  tempResult := fun _ => Except.ok 40000
  setPwmResult := fun _ => Except.ok ()
  setModeResult := fun m =>
    match m with
    | PwmMode.manual => Except.error (GpuError.ioErr 7)
    | PwmMode.automatic => Except.ok ()

/-! ## Claim theorems -/

/-- C1: if the cancellation flag is already set before the first iteration
(and the initial Manual write, whose success the claim presupposes by
asserting the run returns success, goes through), the run performs the
`set_mode(Manual)` write, zero sampling iterations (no temperature read and
no duty-cycle write appear in the trace), then the `set_mode(Automatic)`
restore write, and returns success — whatever the poll interval, the curve
and the rest of the device state, including a failing restore write. -/
theorem run_cancel_before_first_iter (d : DeviceModel) (poll : Nat)
    (curve : List (ℚ × ℚ)) (exit : Nat → Bool) (fuel : Nat)
    (hmode : d.setModeResult PwmMode.manual = Except.ok ())
    (hexit : exit 0 = true) (hfuel : 0 < fuel) :
    run d poll curve exit fuel =
      ([Event.setMode PwmMode.manual, Event.setMode PwmMode.automatic],
        some (Except.ok ())) := by
  obtain ⟨f, rfl⟩ : ∃ f, fuel = f + 1 := ⟨fuel - 1, by omega⟩
  simp [run, control_loop, controlLoopGo, hmode, hexit]

/-- Witness for C1 at a concrete device, curve, interval and flag. -/
theorem run_cancel_before_first_iter_witness :
    run devOk 100 testCurve (fun _ => true) 1 =
      ([Event.setMode PwmMode.manual, Event.setMode PwmMode.automatic],
        some (Except.ok ())) :=
  run_cancel_before_first_iter devOk 100 testCurve (fun _ => true) 1 rfl rfl
    (by decide)

/-- C2: whenever the loop body raises an error (IO, Parse, or
InvalidFanSpeed — the hypothesis quantifies over every `GpuError`), the
caller `run` appends exactly one `set_mode(Automatic)` restore attempt
after the loop trace and propagates the original loop error unchanged; the
device's restore outcome `d.setModeResult automatic` is arbitrary here, so
a failing restore can neither replace nor mask the original error. -/
theorem run_error_restores_once (d : DeviceModel) (poll : Nat)
    (curve : List (ℚ × ℚ)) (exit : Nat → Bool) (fuel : Nat) (e : GpuError)
    (hmode : d.setModeResult PwmMode.manual = Except.ok ())
    (hloop : (control_loop d poll curve exit fuel).2 = some (Except.error e)) :
    (run d poll curve exit fuel).2 = some (Except.error e) ∧
    (run d poll curve exit fuel).1 =
      Event.setMode PwmMode.manual :: (control_loop d poll curve exit fuel).1
        ++ [Event.setMode PwmMode.automatic] ∧
    (run d poll curve exit fuel).1.count (Event.setMode PwmMode.automatic) = 1 := by
  have hrun : run d poll curve exit fuel =
      (Event.setMode PwmMode.manual :: (control_loop d poll curve exit fuel).1
        ++ [Event.setMode PwmMode.automatic], some (Except.error e)) := by
    simp [run, hmode, hloop]
  refine ⟨by rw [hrun], by rw [hrun], ?_⟩
  rw [hrun]
  have hnm : Event.setMode PwmMode.automatic ∉
      (control_loop d poll curve exit fuel).1 :=
    controlLoopGo_no_setMode d curve exit PwmMode.automatic fuel 0
  simp [List.count_cons, List.count_append, List.count_eq_zero.mpr hnm]

/-- Witness for C2: a device whose first temperature read fails with an IO
error; the restore is attempted once and the IO error is what comes out. -/
theorem run_error_restores_once_witness :
    (run devTempFail 100 testCurve (fun _ => false) 1).2 =
      some (Except.error (GpuError.ioErr 3)) ∧
    (run devTempFail 100 testCurve (fun _ => false) 1).1 =
      Event.setMode PwmMode.manual ::
        (control_loop devTempFail 100 testCurve (fun _ => false) 1).1
        ++ [Event.setMode PwmMode.automatic] ∧
    (run devTempFail 100 testCurve (fun _ => false) 1).1.count
      (Event.setMode PwmMode.automatic) = 1 :=
  run_error_restores_once devTempFail 100 testCurve (fun _ => false) 1
    (GpuError.ioErr 3) rfl rfl

/-- C3 counterexample: on a device whose `set_mode(Manual)` write fails,
`run` returns that error without ever attempting the `set_mode(Automatic)`
cleanup — the `?` on the initial mode write returns before the restore
code is reached, contradicting the claimed best-effort cleanup. -/
theorem run_manual_fail_no_restore_cex :
    (run devManualFail 100 testCurve (fun _ => true) 1).2 =
      some (Except.error (GpuError.ioErr 7)) ∧
    Event.setMode PwmMode.automatic ∉
      (run devManualFail 100 testCurve (fun _ => true) 1).1 := by
  exact ⟨rfl, by decide⟩

/-- C3 (amended): if the initial `set_mode(Manual)` write fails, the loop
never starts and the error propagates immediately; no `set_mode(Automatic)`
cleanup is invoked — the only hardware access in the trace is the failed
Manual write. -/
theorem run_manual_fail_aborts (d : DeviceModel) (poll : Nat)
    (curve : List (ℚ × ℚ)) (exit : Nat → Bool) (fuel : Nat) (e : GpuError)
    (hmode : d.setModeResult PwmMode.manual = Except.error e) :
    run d poll curve exit fuel =
      ([Event.setMode PwmMode.manual], some (Except.error e)) := by
  simp [run, hmode]

/-- Witness for the amended C3 at a concrete device. -/
theorem run_manual_fail_aborts_witness :
    run devManualFail 100 testCurve (fun _ => true) 1 =
      ([Event.setMode PwmMode.manual], some (Except.error (GpuError.ioErr 7))) :=
  run_manual_fail_aborts devManualFail 100 testCurve (fun _ => true) 1
    (GpuError.ioErr 7) rfl

/-- C4 counterexample: a NaN fraction does not make the conversion fail.
Rust's `f64::min`/`f64::max` return the non-NaN operand, so the clamp sends
NaN to 1 and `from_percentage` returns `Ok(max)` instead of the claimed
InvalidFanSpeed error. -/
theorem from_percentage_nan_cex :
    from_percentage 0 255 FP.nan = Except.ok 255 := by
  norm_num [from_percentage, fpClamp, FP.rmin, FP.rmax, FP.lt, FP.add, FP.sub,
    FP.neg, FP.mul, FP.isFinite, FP.floorInt, satI32, i32min, i32max]

/-- C4 (amended): a NaN fraction propagating from the curve is silently
clamped to 1 by the min/max pair, so the conversion succeeds and returns
the `max` bound; the InvalidFanSpeed branch fires only when the computed
float is non-finite, which the clamp makes unreachable for `i32` bounds. -/
theorem from_percentage_nan_clamped (pmin pmax : Int)
    (h1 : i32min ≤ pmax) (h2 : pmax ≤ i32max) :
    from_percentage pmin pmax FP.nan = Except.ok pmax := by
  simp only [from_percentage, fpClamp_nan, FP.sub, FP.neg, FP.add, FP.mul,
    FP.isFinite, FP.floorInt, if_true]
  have harith : (pmin : ℚ) + ((pmax : ℚ) + -(pmin : ℚ)) * 1 = (pmax : ℚ) := by ring
  rw [harith, Int.floor_intCast, satI32_id pmax h1 h2]

/-- Witness for the amended C4 at concrete bounds. -/
theorem from_percentage_nan_clamped_witness :
    from_percentage 10 20 FP.nan = Except.ok 20 :=
  from_percentage_nan_clamped 10 20 (by decide) (by decide)

/-- C5: on the test curve [(10,5),(30,10),(50,50),(100,80)] the evaluator
returns exactly the claimed values: flat clamp at or beyond the extreme
x-values (inputs 0, 10, 110) and linear interpolation strictly between
breakpoints (inputs 20, 45; input 30 hits a breakpoint and interpolates to
its own y-value).  Every arithmetic step here is exact in binary64. -/
theorem control_test_curve_values :
    ControlCurve.control testCurve (FP.fin 0) = some (FP.fin 5) ∧
    ControlCurve.control testCurve (FP.fin 110) = some (FP.fin 80) ∧
    ControlCurve.control testCurve (FP.fin 10) = some (FP.fin 5) ∧
    ControlCurve.control testCurve (FP.fin 30) = some (FP.fin 10) ∧
    ControlCurve.control testCurve (FP.fin 20) = some (FP.fin (15 / 2)) ∧
    ControlCurve.control testCurve (FP.fin 45) = some (FP.fin 40) := by
  refine ⟨?_, ?_, ?_, ?_, ?_, ?_⟩ <;>
    norm_num [ControlCurve.control, highIndex, testCurve, bsearchGo, cmpProbe,
      FP.add, FP.sub, FP.neg, FP.mul, FP.div]

/-- C6: on an empty breakpoint sequence the evaluator returns NaN for every
input — `some` means no panic occurred, and the value is NaN rather than
any default. -/
theorem control_empty_nan (input : FP) :
    ControlCurve.control [] input = some FP.nan := rfl

/-- C7: a fraction strictly below 0 (including negative infinity) converts
exactly like 0, and a fraction strictly above 1 (including positive
infinity) converts exactly like 1, for every min/max pair; `FP.lt` is the
IEEE comparison, so NaN is outside both cases. -/
theorem from_percentage_outside_clamp (pmin pmax : Int) (f : FP) :
    (FP.lt f (FP.fin 0) = true →
      from_percentage pmin pmax f = from_percentage pmin pmax (FP.fin 0)) ∧
    (FP.lt (FP.fin 1) f = true →
      from_percentage pmin pmax f = from_percentage pmin pmax (FP.fin 1)) := by
  constructor
  · intro hlt
    apply from_percentage_congr
    rw [fpClamp_zero]
    cases f with
    | nan => simp [FP.lt] at hlt
    | inf s =>
      cases s with
      | false => decide
      | true => simp [FP.lt] at hlt
    | fin q =>
      have hq : q < 0 := by simpa [FP.lt] using hlt
      norm_num [fpClamp, FP.rmin, FP.rmax, FP.lt, hq, not_lt.mpr (le_of_lt (by linarith : q < 1))]
  · intro hlt
    apply from_percentage_congr
    rw [fpClamp_one]
    cases f with
    | nan => simp [FP.lt] at hlt
    | inf s =>
      cases s with
      | true => decide
      | false => simp [FP.lt] at hlt
    | fin q =>
      have hq : 1 < q := by simpa [FP.lt] using hlt
      norm_num [fpClamp, FP.rmin, FP.rmax, FP.lt, hq]

/-- Witness for C7 at the fractions named in the spec, -5 and 5. -/
theorem from_percentage_outside_clamp_witness :
    from_percentage 0 255 (FP.fin (-5)) = from_percentage 0 255 (FP.fin 0) ∧
    from_percentage 0 255 (FP.fin 5) = from_percentage 0 255 (FP.fin 1) :=
  ⟨(from_percentage_outside_clamp 0 255 (FP.fin (-5))).1 (by decide),
   (from_percentage_outside_clamp 0 255 (FP.fin 5)).2 (by decide)⟩

/-- C8: for `i32` bounds with min ≤ max, the conversion always succeeds
with a raw value inside [min, max], and for min < max the fractions 0 and 1
hit the bounds exactly. -/
theorem from_percentage_range_exact (pmin pmax : Int) (f : FP)
    (hle : pmin ≤ pmax) (hlo : i32min ≤ pmin) (hhi : pmax ≤ i32max) :
    (∃ v, from_percentage pmin pmax f = Except.ok v ∧ pmin ≤ v ∧ v ≤ pmax) ∧
    (pmin < pmax →
      from_percentage pmin pmax (FP.fin 0) = Except.ok pmin ∧
      from_percentage pmin pmax (FP.fin 1) = Except.ok pmax) := by
  have hexact : ∀ t : ℚ, 0 ≤ t → t ≤ 1 →
      pmin ≤ ⌊(pmin : ℚ) + ((pmax : ℚ) - (pmin : ℚ)) * t⌋ ∧
      ⌊(pmin : ℚ) + ((pmax : ℚ) - (pmin : ℚ)) * t⌋ ≤ pmax := by
    intro t h0 h1
    have hd : (0 : ℚ) ≤ (pmax : ℚ) - (pmin : ℚ) := by
      rw [sub_nonneg]; exact_mod_cast hle
    have hx1 : (pmin : ℚ) ≤ (pmin : ℚ) + ((pmax : ℚ) - (pmin : ℚ)) * t := by
      nlinarith
    have hx2 : (pmin : ℚ) + ((pmax : ℚ) - (pmin : ℚ)) * t ≤ (pmax : ℚ) := by
      nlinarith
    constructor
    · exact Int.le_floor.mpr hx1
    · calc ⌊(pmin : ℚ) + ((pmax : ℚ) - (pmin : ℚ)) * t⌋
          ≤ ⌊(pmax : ℚ)⌋ := Int.floor_le_floor hx2
        _ = pmax := Int.floor_intCast pmax
  constructor
  · obtain ⟨t, h0, h1, heq⟩ := from_percentage_ok pmin pmax f
    obtain ⟨hb1, hb2⟩ := hexact t h0 h1
    have hsat := satI32_id ⌊(pmin : ℚ) + ((pmax : ℚ) - (pmin : ℚ)) * t⌋
      (le_trans hlo hb1) (le_trans hb2 hhi)
    exact ⟨⌊(pmin : ℚ) + ((pmax : ℚ) - (pmin : ℚ)) * t⌋,
      by rw [heq, hsat], hb1, hb2⟩
  · intro _
    constructor
    · have heq : from_percentage pmin pmax (FP.fin 0) =
          Except.ok (satI32 ⌊(pmin : ℚ) + ((pmax : ℚ) + -(pmin : ℚ)) * 0⌋) := by
        simp only [from_percentage, fpClamp_zero, FP.sub, FP.neg, FP.add, FP.mul,
          FP.isFinite, FP.floorInt, if_true]
      have harith : (pmin : ℚ) + ((pmax : ℚ) + -(pmin : ℚ)) * 0 = (pmin : ℚ) := by ring
      rw [heq, harith, Int.floor_intCast, satI32_id pmin hlo (le_trans hle hhi)]
    · have heq : from_percentage pmin pmax (FP.fin 1) =
          Except.ok (satI32 ⌊(pmin : ℚ) + ((pmax : ℚ) + -(pmin : ℚ)) * 1⌋) := by
        simp only [from_percentage, fpClamp_one, FP.sub, FP.neg, FP.add, FP.mul,
          FP.isFinite, FP.floorInt, if_true]
      have harith : (pmin : ℚ) + ((pmax : ℚ) + -(pmin : ℚ)) * 1 = (pmax : ℚ) := by ring
      rw [heq, harith, Int.floor_intCast, satI32_id pmax (le_trans hlo hle) hhi]

/-- Witness for C8 at concrete bounds 0/255 and fraction one half. -/
theorem from_percentage_range_exact_witness :
    (∃ v, from_percentage 0 255 (FP.fin (1 / 2)) = Except.ok v ∧
      0 ≤ v ∧ v ≤ 255) ∧
    ((0 : Int) < 255 →
      from_percentage 0 255 (FP.fin 0) = Except.ok 0 ∧
      from_percentage 0 255 (FP.fin 1) = Except.ok 255) :=
  from_percentage_range_exact 0 255 (FP.fin (1 / 2)) (by decide) (by decide)
    (by decide)

/-- C10: `from_percentage` returns `Ok` for every pair of bounds and every
fraction, NaN and the infinities included — the clamp always produces a
finite value in [0, 1], the arithmetic on finite operands stays finite, and
so the InvalidFanSpeed branch is unreachable (this holds for all integer
bounds, in particular every `i32` pair). -/
theorem from_percentage_always_ok (pmin pmax : Int) (f : FP) :
    ∃ v, from_percentage pmin pmax f = Except.ok v := by
  obtain ⟨t, _, _, heq⟩ := from_percentage_ok pmin pmax f
  exact ⟨_, heq⟩

/-- C9 counterexample: a file with two conflicting lines "1" and "2" does
not yield a Parse error — `read_value` parses the first line only and
returns `Ok 1`, ignoring everything after the first newline. -/
theorem read_value_multiline_cex :
    read_value "p" (Except.ok ['1', '\n', '2', '\n']) = Except.ok 1 := rfl

/-- C9 (amended): a numeric read takes the first line of the file, strips
its line ending, and parses it as a signed 32-bit integer; content after
the first newline is ignored.  An empty file, a non-numeric first line, or
trailing garbage within the first line yields a Parse error carrying the
path and the raw first line read (or its absence), never a default value. -/
theorem read_value_first_line_spec (path : String) (cs : List Char) :
    (read_value path (Except.ok []) = Except.error (GpuError.parse path none)) ∧
    (∀ l, rustFirstLine cs = some l → parseI32 l = none →
      read_value path (Except.ok cs) =
        Except.error (GpuError.parse path (some l))) ∧
    (∀ l v, rustFirstLine cs = some l → parseI32 l = some v →
      read_value path (Except.ok cs) = Except.ok v) ∧
    (∀ l rest, '\n' ∉ l →
      read_value path (Except.ok (l ++ '\n' :: rest)) =
        read_value path (Except.ok (l ++ ['\n']))) := by
  refine ⟨rfl, ?_, ?_, ?_⟩
  · intro l h1 h2
    simp [read_value, h1, h2]
  · intro l v h1 h2
    simp [read_value, h1, h2]
  · intro l rest h
    have h1 := rustFirstLine_append_newline l rest h
    have h2 := rustFirstLine_append_newline l [] h
    simp only [read_value, h1, h2]

/-- Witness for the amended C9: the non-numeric file "abc" yields the Parse
error carrying the path and the raw line. -/
theorem read_value_first_line_spec_witness :
    read_value "p" (Except.ok ['a', 'b', 'c']) =
      Except.error (GpuError.parse "p" (some ['a', 'b', 'c'])) :=
  (read_value_first_line_spec "p" ['a', 'b', 'c']).2.1 ['a', 'b', 'c'] rfl rfl
